import Mathlib

/-!
Verification of the race-detector instrumentation bridge
(`src/pkg/runtime/race.c`).

The bridge is modelled as a family of state transformers over a carrier-thread
state `MState` holding the `racecall` ("in-bridge") flag and a log of the calls
issued to the external detector engine.  Each detector call is recorded in the
log together with the value the `racecall` flag had at the moment of the call,
so that guard-bracketing properties are observable on the trace.

Addresses and program counters are natural numbers; goroutine identifiers are
integers (the code reports `goid - 1`).  The linker/heap layout constants
(`noptrdata`, `enoptrbss`, `arena_start`, `arena_used`, `runtime.lessstack`)
are gathered in a `Layout` parameter, and `runtime.callers` — the physical
stack unwinder — is an oracle `Nat → Nat` from skip count to recovered pc.
-/

namespace RaceBridge

/-- Linker / heap-arena layout constants read by the bridge. -/
structure Layout where
  noptrdata : Nat
  enoptrbss : Nat
  arena_start : Nat
  arena_used : Nat
  lessstack : Nat
  deriving Repr, DecidableEq

/-- The fields of a goroutine (`G`) the bridge reads: its identifier and its
race-ignore depth counter. -/
structure G where
  goid : Int
  raceignore : Int
  deriving Repr, DecidableEq

/-- One call into the external detector engine, with its arguments. -/
inductive Event where
  | read (goid : Int) (addr pc : Nat)
  | write (goid : Int) (addr pc : Nat)
  | readRange (goid : Int) (addr sz step pc : Nat)
  | writeRange (goid : Int) (addr sz step pc : Nat)
  | funcEnter (goid : Int) (pc : Nat)
  | funcExit (goid : Int)
  | malloc (goid : Int) (p sz pc : Nat)
  | free (p : Nat)
  | goStart (pgoid chgoid : Int) (pc : Nat)
  | goEnd (goid : Int)
  | acquire (goid : Int) (addr : Nat)
  | release (goid : Int) (addr : Nat)
  | releaseMerge (goid : Int) (addr : Nat)
  | finalizerGoroutine (goid : Int)
  deriving Repr, DecidableEq

/-- Carrier-thread (OS thread `m`) state: the `racecall` in-bridge flag and the
trace of detector calls issued so far.  Each trace entry pairs the call with
the value of the `racecall` flag observed at the moment the call was made. -/
structure MState where
  racecall : Bool
  log : List (Event × Bool)
  deriving Repr, DecidableEq

/-- Issue one detector call: append it to the trace, recording the current
value of the in-bridge flag alongside it. -/
def emit (s : MState) (ev : Event) : MState :=
  ⟨s.racecall, s.log ++ [(ev, s.racecall)]⟩

/-- Assignment `m->racecall = b`. -/
def setRacecall (s : MState) (b : Bool) : MState :=
  ⟨b, s.log⟩

/-- `onstack` from race.c: an address is on-stack (untracked) unless it lies in
the static data segment `[noptrdata, enoptrbss)` or in the heap arena
`[arena_start, arena_used)`. -/
def onstack (L : Layout) (argp : Nat) : Bool :=
  if L.noptrdata ≤ argp ∧ argp < L.enoptrbss then false
  else if L.arena_start ≤ argp ∧ argp < L.arena_used then false
  else true

/-- `runtime·racewrite`: skip if `onstack(addr)`; otherwise set the flag,
forward `Write(goid-1, addr, callerpc)`, clear the flag. -/
def racewrite (L : Layout) (gs : G) (addr pc : Nat) (s : MState) : MState :=
  if ¬ onstack L addr then
    setRacecall (emit (setRacecall s true) (Event.write (gs.goid - 1) addr pc)) false
  else s

/-- `runtime·raceread`: skip if `onstack(addr)`; otherwise set the flag,
forward `Read(goid-1, addr, callerpc)`, clear the flag. -/
def raceread (L : Layout) (gs : G) (addr pc : Nat) (s : MState) : MState :=
  if ¬ onstack L addr then
    setRacecall (emit (setRacecall s true) (Event.read (gs.goid - 1) addr pc)) false
  else s

/-- `runtime·racefuncenter`: if the captured pc is `runtime·lessstack` or lies
in the heap arena, replace it by `runtime·callers(2, ...)`; then forward
`FuncEnter(goid-1, pc)` under the flag. -/
def racefuncenter (L : Layout) (callers : Nat → Nat) (gs : G) (pc : Nat)
    (s : MState) : MState :=
  let pc1 := if pc = L.lessstack ∨ (L.arena_start ≤ pc ∧ pc < L.arena_used)
    then callers 2 else pc
  setRacecall (emit (setRacecall s true) (Event.funcEnter (gs.goid - 1) pc1)) false

/-- `runtime·racefuncexit`: forward `FuncExit(goid-1)` under the flag. -/
def racefuncexit (gs : G) (s : MState) : MState :=
  setRacecall (emit (setRacecall s true) (Event.funcExit (gs.goid - 1))) false

/-- `runtime·racemalloc`: dropped when `m->curg == nil`; otherwise forward
`Malloc(curg->goid-1, p, sz, pc)` under the flag (no `onstack` filter). -/
def racemalloc (curg : Option G) (p sz pc : Nat) (s : MState) : MState :=
  match curg with
  | none => s
  | some gp =>
    setRacecall (emit (setRacecall s true) (Event.malloc (gp.goid - 1) p sz pc)) false

/-- `runtime·racefree`: forward `Free(p)` under the flag. -/
def racefree (p : Nat) (s : MState) : MState :=
  setRacecall (emit (setRacecall s true) (Event.free p)) false

/-- `runtime·racegostart`: forward `GoStart(g->goid-1, goid-1, pc)` under the
flag. -/
def racegostart (gs : G) (goid : Int) (pc : Nat) (s : MState) : MState :=
  setRacecall (emit (setRacecall s true) (Event.goStart (gs.goid - 1) (goid - 1) pc)) false

/-- `runtime·racegoend`: forward `GoEnd(goid-1)` under the flag. -/
def racegoend (goid : Int) (s : MState) : MState :=
  setRacecall (emit (setRacecall s true) (Event.goEnd (goid - 1))) false

/-- `memoryaccess` from race.c: under a single `onstack` check and a single
flag bracket, optionally resolve and forward `FuncEnter(callpc)` when
`callpc != 0`, forward the `Read`/`Write` access, and forward `FuncExit` when
`callpc != 0`. -/
def memoryaccess (L : Layout) (callers : Nat → Nat) (gs : G)
    (addr callpc pc : Nat) (write : Bool) (s : MState) : MState :=
  if ¬ onstack L addr then
    let s1 := setRacecall s true
    let goid := gs.goid - 1
    let callpc1 :=
      if callpc = L.lessstack ∨ (L.arena_start ≤ callpc ∧ callpc < L.arena_used)
      then callers 3 else callpc
    let s2 := if callpc ≠ 0 then emit s1 (Event.funcEnter goid callpc1) else s1
    let s3 := if write then emit s2 (Event.write goid addr pc)
              else emit s2 (Event.read goid addr pc)
    let s4 := if callpc ≠ 0 then emit s3 (Event.funcExit goid) else s3
    setRacecall s4 false
  else s

/-- `rangeaccess` from race.c: like `memoryaccess` but forwarding
`ReadRange`/`WriteRange(goid, addr, sz, step, pc)`. -/
def rangeaccess (L : Layout) (callers : Nat → Nat) (gs : G)
    (addr sz step callpc pc : Nat) (write : Bool) (s : MState) : MState :=
  if ¬ onstack L addr then
    let s1 := setRacecall s true
    let goid := gs.goid - 1
    let callpc1 :=
      if callpc = L.lessstack ∨ (L.arena_start ≤ callpc ∧ callpc < L.arena_used)
      then callers 3 else callpc
    let s2 := if callpc ≠ 0 then emit s1 (Event.funcEnter goid callpc1) else s1
    let s3 := if write then emit s2 (Event.writeRange goid addr sz step pc)
              else emit s2 (Event.readRange goid addr sz step pc)
    let s4 := if callpc ≠ 0 then emit s3 (Event.funcExit goid) else s3
    setRacecall s4 false
  else s

/-- `runtime·racewritepc`. -/
def racewritepc (L : Layout) (callers : Nat → Nat) (gs : G)
    (addr callpc pc : Nat) (s : MState) : MState :=
  memoryaccess L callers gs addr callpc pc true s

/-- `runtime·racereadpc`. -/
def racereadpc (L : Layout) (callers : Nat → Nat) (gs : G)
    (addr callpc pc : Nat) (s : MState) : MState :=
  memoryaccess L callers gs addr callpc pc false s

/-- `runtime·racewriterangepc`. -/
def racewriterangepc (L : Layout) (callers : Nat → Nat) (gs : G)
    (addr sz step callpc pc : Nat) (s : MState) : MState :=
  rangeaccess L callers gs addr sz step callpc pc true s

/-- `runtime·racereadrangepc`. -/
def racereadrangepc (L : Layout) (callers : Nat → Nat) (gs : G)
    (addr sz step callpc pc : Nat) (s : MState) : MState :=
  rangeaccess L callers gs addr sz step callpc pc false s

/-- `runtime·raceacquireg`: `gs` is the goroutine currently running on the
carrier thread (the global `g`), `gp` the goroutine the event is issued on
behalf of.  The source tests `g->raceignore` (the current goroutine's counter)
and reports `gp->goid-1`. -/
def raceacquireg (gs gp : G) (addr : Nat) (s : MState) : MState :=
  if gs.raceignore ≠ 0 then s
  else setRacecall (emit (setRacecall s true) (Event.acquire (gp.goid - 1) addr)) false

/-- `runtime·raceacquire`: `raceacquireg(g, addr)`. -/
def raceacquire (gs : G) (addr : Nat) (s : MState) : MState :=
  raceacquireg gs gs addr s

/-- `runtime·racereleaseg`: tests `g->raceignore`, reports `gp->goid-1`. -/
def racereleaseg (gs gp : G) (addr : Nat) (s : MState) : MState :=
  if gs.raceignore ≠ 0 then s
  else setRacecall (emit (setRacecall s true) (Event.release (gp.goid - 1) addr)) false

/-- `runtime·racerelease`: `racereleaseg(g, addr)`. -/
def racerelease (gs : G) (addr : Nat) (s : MState) : MState :=
  racereleaseg gs gs addr s

/-- `runtime·racereleasemergeg`: tests `g->raceignore`, reports `gp->goid-1`. -/
def racereleasemergeg (gs gp : G) (addr : Nat) (s : MState) : MState :=
  if gs.raceignore ≠ 0 then s
  else setRacecall (emit (setRacecall s true) (Event.releaseMerge (gp.goid - 1) addr)) false

/-- `runtime·racereleasemerge`: `racereleasemergeg(g, addr)`. -/
def racereleasemerge (gs : G) (addr : Nat) (s : MState) : MState :=
  racereleasemergeg gs gs addr s

/-- `runtime·racefingo`: forward `FinalizerGoroutine(g->goid - 1)` under the
flag. -/
def racefingo (gs : G) (s : MState) : MState :=
  setRacecall (emit (setRacecall s true) (Event.finalizerGoroutine (gs.goid - 1))) false

/-- `runtime·RaceDisable`: `g->raceignore++`. -/
def RaceDisable (gs : G) : G :=
  ⟨gs.goid, gs.raceignore + 1⟩

/-- `runtime·RaceEnable`: `g->raceignore--`. -/
def RaceEnable (gs : G) : G :=
  ⟨gs.goid, gs.raceignore - 1⟩

/-- Follows the spec's words (Address Classifier): an address is tracked iff
it lies within the static/global data segment bounds or within the heap
arena's `[start, used)` bounds. -/
def trackedSpec (L : Layout) (a : Nat) : Prop :=
  (L.noptrdata ≤ a ∧ a < L.enoptrbss) ∨ (L.arena_start ≤ a ∧ a < L.arena_used)

instance (L : Layout) (a : Nat) : Decidable (trackedSpec L a) := by
  unfold trackedSpec
  infer_instance

/-- Follows the spec's words (Call-Stack Resolver): a captured caller pc equal
to the stack-growth trampoline entry point, or lying within the heap arena's
`[start, used)` bounds, is replaced by the result of unwinding the physical
call stack (the `callers` oracle at a fixed skip count); any other pc is used
as-is. -/
def resolvepc (L : Layout) (callers : Nat → Nat) (skip pc : Nat) : Nat :=
  if pc = L.lessstack ∨ (L.arena_start ≤ pc ∧ pc < L.arena_used)
  then callers skip else pc

/-- Modelled from the spec: the Reentrancy Guard consultation.  `race.c` only
sets and clears the carrier thread's `racecall` flag around detector calls;
the code that tests the flag before an instrumented access and skips the
access when the flag is already true is not part of `src/`.  Following the
spec: "the in-bridge flag, when already true, causes that access to be
skipped". -/
def guardedRaceread (L : Layout) (gs : G) (addr pc : Nat) (s : MState) : MState :=
  if s.racecall then s else raceread L gs addr pc s

/-- Modelled from the spec: "model the detector as a stub that performs one
internal access per call" — a read probe whose detector call performs one
instrumented internal access (address `iaddr`, pc `ipc`) while the in-bridge
flag is held, that internal access going through the guarded probe. -/
def racereadStubbed (L : Layout) (gs : G) (addr pc iaddr ipc : Nat)
    (s : MState) : MState :=
  if ¬ onstack L addr then
    let s1 := emit (setRacecall s true) (Event.read (gs.goid - 1) addr pc)
    setRacecall (guardedRaceread L gs iaddr ipc s1) false
  else s

theorem raceread_eq (L : Layout) (gs : G) (addr pc : Nat) (s : MState) :
    raceread L gs addr pc s =
      if onstack L addr then s
      else ⟨false, s.log ++ [(Event.read (gs.goid - 1) addr pc, true)]⟩ := by
  unfold raceread emit setRacecall
  by_cases h : onstack L addr <;> simp [h]

theorem racewrite_eq (L : Layout) (gs : G) (addr pc : Nat) (s : MState) :
    racewrite L gs addr pc s =
      if onstack L addr then s
      else ⟨false, s.log ++ [(Event.write (gs.goid - 1) addr pc, true)]⟩ := by
  unfold racewrite emit setRacecall
  by_cases h : onstack L addr <;> simp [h]

theorem memoryaccess_eq (L : Layout) (callers : Nat → Nat) (gs : G)
    (addr callpc pc : Nat) (w : Bool) (s : MState) :
    memoryaccess L callers gs addr callpc pc w s =
      if onstack L addr then s
      else ⟨false, s.log ++
        ((if callpc ≠ 0 then
            [(Event.funcEnter (gs.goid - 1) (resolvepc L callers 3 callpc), true)]
          else []) ++
         [((if w then Event.write (gs.goid - 1) addr pc
            else Event.read (gs.goid - 1) addr pc), true)] ++
         (if callpc ≠ 0 then [(Event.funcExit (gs.goid - 1), true)] else []))⟩ := by
  unfold memoryaccess emit setRacecall resolvepc
  by_cases h : onstack L addr <;> by_cases hc : callpc = 0 <;> cases w <;>
    simp [h, hc]

theorem rangeaccess_eq (L : Layout) (callers : Nat → Nat) (gs : G)
    (addr sz step callpc pc : Nat) (w : Bool) (s : MState) :
    rangeaccess L callers gs addr sz step callpc pc w s =
      if onstack L addr then s
      else ⟨false, s.log ++
        ((if callpc ≠ 0 then
            [(Event.funcEnter (gs.goid - 1) (resolvepc L callers 3 callpc), true)]
          else []) ++
         [((if w then Event.writeRange (gs.goid - 1) addr sz step pc
            else Event.readRange (gs.goid - 1) addr sz step pc), true)] ++
         (if callpc ≠ 0 then [(Event.funcExit (gs.goid - 1), true)] else []))⟩ := by
  unfold rangeaccess emit setRacecall resolvepc
  by_cases h : onstack L addr <;> by_cases hc : callpc = 0 <;> cases w <;>
    simp [h, hc]

theorem raceDisable_iterate (gs : G) (n : Nat) :
    RaceDisable^[n] gs = ⟨gs.goid, gs.raceignore + n⟩ := by
  induction n with
  | zero => simp
  | succ k ih =>
    rw [Function.iterate_succ_apply', ih]
    simp [RaceDisable]
    ring

theorem raceEnable_iterate (gs : G) (n : Nat) :
    RaceEnable^[n] gs = ⟨gs.goid, gs.raceignore - n⟩ := by
  induction n with
  | zero => simp
  | succ k ih =>
    rw [Function.iterate_succ_apply', ih]
    simp [RaceEnable]
    ring

/-- Claim C1: a Read/Write probe on a stack-classified (untracked) address is
a complete no-op — no detector call is made and the in-bridge flag is never
touched; on a tracked address exactly one detector Read (resp. Write) call is
issued carrying `goid - 1`, the address and the captured caller pc, made with
the in-bridge flag true and with the flag restored to false afterwards. -/
theorem probe_read_write (L : Layout) (gs : G) (addr pc : Nat) (s : MState) :
    (onstack L addr = true →
      raceread L gs addr pc s = s ∧ racewrite L gs addr pc s = s) ∧
    (onstack L addr = false →
      raceread L gs addr pc s
        = ⟨false, s.log ++ [(Event.read (gs.goid - 1) addr pc, true)]⟩ ∧
      racewrite L gs addr pc s
        = ⟨false, s.log ++ [(Event.write (gs.goid - 1) addr pc, true)]⟩) := by
  refine ⟨fun h => ?_, fun h => ?_⟩ <;> simp [raceread_eq, racewrite_eq, h]

theorem probe_read_write_witness :
    (onstack ⟨100, 200, 1000, 2000, 42⟩ 50 = true ∧
      raceread ⟨100, 200, 1000, 2000, 42⟩ ⟨3, 0⟩ 50 7 ⟨false, []⟩ = ⟨false, []⟩) ∧
    (onstack ⟨100, 200, 1000, 2000, 42⟩ 150 = false ∧
      raceread ⟨100, 200, 1000, 2000, 42⟩ ⟨3, 0⟩ 150 7 ⟨false, []⟩
        = ⟨false, [(Event.read 2 150 7, true)]⟩) :=
  ⟨⟨by decide,
    ((probe_read_write ⟨100, 200, 1000, 2000, 42⟩ ⟨3, 0⟩ 50 7 ⟨false, []⟩).1
      (by decide)).1⟩,
   ⟨by decide,
    ((probe_read_write ⟨100, 200, 1000, 2000, 42⟩ ⟨3, 0⟩ 150 7 ⟨false, []⟩).2
      (by decide)).1⟩⟩

/-- Claim C2: an instrumented access arriving on a carrier thread whose
in-bridge flag is already true issues no detector call (the guarded probe is
the identity there), so a detector call never recurses into another detector
call: with the detector stubbed to perform one internal instrumented access
per call, a single probe on a tracked address records exactly one detector
call. -/
theorem reentrancy_no_recursion (L : Layout) (gs : G)
    (addr pc iaddr ipc : Nat) (s : MState) :
    (s.racecall = true → guardedRaceread L gs addr pc s = s) ∧
    (s.racecall = false → onstack L addr = false →
      racereadStubbed L gs addr pc iaddr ipc s
        = ⟨false, s.log ++ [(Event.read (gs.goid - 1) addr pc, true)]⟩) := by
  constructor
  · intro h
    simp [guardedRaceread, h]
  · intro h ha
    simp [racereadStubbed, ha, guardedRaceread, emit, setRacecall]

theorem reentrancy_no_recursion_witness :
    guardedRaceread ⟨100, 200, 1000, 2000, 42⟩ ⟨3, 0⟩ 150 7 ⟨true, []⟩
      = ⟨true, []⟩ ∧
    racereadStubbed ⟨100, 200, 1000, 2000, 42⟩ ⟨3, 0⟩ 150 7 160 9 ⟨false, []⟩
      = ⟨false, [(Event.read 2 150 7, true)]⟩ :=
  ⟨(reentrancy_no_recursion ⟨100, 200, 1000, 2000, 42⟩ ⟨3, 0⟩ 150 7 160 9
      ⟨true, []⟩).1 rfl,
   (reentrancy_no_recursion ⟨100, 200, 1000, 2000, 42⟩ ⟨3, 0⟩ 150 7 160 9
      ⟨false, []⟩).2 rfl (by decide)⟩

/-- Claim C3 fails as stated: an Acquire issued on behalf of a task `gp` whose
ignore-depth counter is 1 (greater than zero) is still forwarded, because the
source tests the current goroutine's counter (`g->raceignore`), not the
subject task's (`gp->raceignore`). -/
theorem sync_subject_ignore_counterexample :
    0 < (⟨5, 1⟩ : G).raceignore ∧
    (raceacquireg ⟨1, 0⟩ ⟨5, 1⟩ 64 ⟨false, []⟩).log
      = [(Event.acquire 4 64, true)] := by
  decide

/-- Claim C3 (amended): suppression of Acquire/Release/ReleaseMerge is keyed
to the current goroutine's ignore-depth counter: when the current task's
counter is greater than zero no event is forwarded; when it is zero exactly
one detector call is issued carrying the subject task's external identifier
(`goid - 1`) and the synchronization address. -/
theorem sync_forwarding (gs gp : G) (addr : Nat) (s : MState) :
    (0 < gs.raceignore →
      raceacquireg gs gp addr s = s ∧ racereleaseg gs gp addr s = s ∧
      racereleasemergeg gs gp addr s = s) ∧
    (gs.raceignore = 0 →
      raceacquireg gs gp addr s
        = ⟨false, s.log ++ [(Event.acquire (gp.goid - 1) addr, true)]⟩ ∧
      racereleaseg gs gp addr s
        = ⟨false, s.log ++ [(Event.release (gp.goid - 1) addr, true)]⟩ ∧
      racereleasemergeg gs gp addr s
        = ⟨false, s.log ++ [(Event.releaseMerge (gp.goid - 1) addr, true)]⟩) := by
  constructor
  · intro h
    have h' : gs.raceignore ≠ 0 := by omega
    simp [raceacquireg, racereleaseg, racereleasemergeg, h']
  · intro h
    simp [raceacquireg, racereleaseg, racereleasemergeg, h, emit, setRacecall]

theorem sync_forwarding_witness :
    ((0 : Int) < 2 ∧ raceacquireg ⟨1, 2⟩ ⟨5, 0⟩ 64 ⟨false, []⟩ = ⟨false, []⟩) ∧
    raceacquireg ⟨1, 0⟩ ⟨5, 0⟩ 64 ⟨false, []⟩
      = ⟨false, [(Event.acquire 4 64, true)]⟩ :=
  ⟨⟨by decide,
    ((sync_forwarding ⟨1, 2⟩ ⟨5, 0⟩ 64 ⟨false, []⟩).1 (by decide)).1⟩,
   ((sync_forwarding ⟨1, 0⟩ ⟨5, 0⟩ 64 ⟨false, []⟩).2 rfl).1⟩

/-- Claim C4: the address classifier is a pure range test — an address is
classified tracked (`onstack` returns `false`) iff it lies within the static
data segment bounds or within the heap arena's `[start, used)` bounds; every
other address is classified stack/untracked. -/
theorem onstack_characterization (L : Layout) (a : Nat) :
    onstack L a = false ↔ trackedSpec L a := by
  unfold onstack trackedSpec
  by_cases h1 : L.noptrdata ≤ a ∧ a < L.enoptrbss <;>
    by_cases h2 : L.arena_start ≤ a ∧ a < L.arena_used <;> simp [h1, h2]

/-- Claim C5: every FuncEnter-carrying event resolves the caller pc before
forwarding: `racefuncenter` forwards the pc resolved at skip count 2, the
combined forms forward the `callpc` resolved at skip count 3; the resolver
replaces a pc equal to the stack-growth trampoline entry or lying within the
heap arena's `[start, used)` bounds by the unwound address, and forwards any
other pc unchanged. -/
theorem callerpc_resolution (L : Layout) (callers : Nat → Nat) (gs : G)
    (pc addr callpc apc sz st : Nat) (w : Bool) (s : MState)
    (hcp : callpc ≠ 0) (ha : onstack L addr = false) :
    ((racefuncenter L callers gs pc s).log
      = s.log ++ [(Event.funcEnter (gs.goid - 1) (resolvepc L callers 2 pc), true)]) ∧
    ((memoryaccess L callers gs addr callpc apc w s).log
      = s.log ++
        ((Event.funcEnter (gs.goid - 1) (resolvepc L callers 3 callpc), true) ::
         ((if w then Event.write (gs.goid - 1) addr apc
           else Event.read (gs.goid - 1) addr apc), true) ::
         [(Event.funcExit (gs.goid - 1), true)])) ∧
    ((rangeaccess L callers gs addr sz st callpc apc w s).log
      = s.log ++
        ((Event.funcEnter (gs.goid - 1) (resolvepc L callers 3 callpc), true) ::
         ((if w then Event.writeRange (gs.goid - 1) addr sz st apc
           else Event.readRange (gs.goid - 1) addr sz st apc), true) ::
         [(Event.funcExit (gs.goid - 1), true)])) ∧
    ((pc = L.lessstack ∨ (L.arena_start ≤ pc ∧ pc < L.arena_used)) →
      resolvepc L callers 2 pc = callers 2) ∧
    (¬ (pc = L.lessstack ∨ (L.arena_start ≤ pc ∧ pc < L.arena_used)) →
      resolvepc L callers 2 pc = pc) := by
  refine ⟨?_, ?_, ?_, fun h => ?_, fun h => ?_⟩
  · unfold racefuncenter resolvepc emit setRacecall
    simp
  · rw [memoryaccess_eq]
    simp [ha, hcp]
  · rw [rangeaccess_eq]
    simp [ha, hcp]
  · simp [resolvepc, h]
  · simp [resolvepc, h]

theorem callerpc_resolution_witness :
    ((77 : Nat) ≠ 0 ∧ onstack ⟨100, 200, 1000, 2000, 42⟩ 150 = false) ∧
    (racefuncenter ⟨100, 200, 1000, 2000, 42⟩ (fun k => 500 + k) ⟨3, 0⟩ 42
        ⟨false, []⟩).log
      = [(Event.funcEnter 2 502, true)] ∧
    (memoryaccess ⟨100, 200, 1000, 2000, 42⟩ (fun k => 500 + k) ⟨3, 0⟩ 150 77 9
        true ⟨false, []⟩).log
      = [(Event.funcEnter 2 77, true), (Event.write 2 150 9, true),
         (Event.funcExit 2, true)] := by
  have h := callerpc_resolution ⟨100, 200, 1000, 2000, 42⟩ (fun k => 500 + k)
    ⟨3, 0⟩ 42 150 77 9 0 0 true ⟨false, []⟩ (by decide) (by decide)
  exact ⟨⟨by decide, by decide⟩, by rw [h.1]; decide, by rw [h.2.1]; decide⟩

/-- Claim C6: the combined forms ReadPC/WritePC and the ranged variants: with
an untracked address no detector call is issued; with a tracked address and a
zero callerPC only the access call is issued; with a tracked address and a
non-zero callerPC exactly FuncEnter(resolved callerPC), the access (with
address, size/step and pc), then FuncExit are issued in order, each recorded
with the in-bridge flag true and the flag false again afterwards — all under
the single untracked-address check. -/
theorem pc_forms_sequence (L : Layout) (callers : Nat → Nat) (gs : G)
    (addr callpc pc sz st : Nat) (s : MState) :
    (onstack L addr = true →
      racereadpc L callers gs addr callpc pc s = s ∧
      racewritepc L callers gs addr callpc pc s = s ∧
      racereadrangepc L callers gs addr sz st callpc pc s = s ∧
      racewriterangepc L callers gs addr sz st callpc pc s = s) ∧
    (onstack L addr = false → callpc = 0 →
      racereadpc L callers gs addr callpc pc s
        = ⟨false, s.log ++ [(Event.read (gs.goid - 1) addr pc, true)]⟩ ∧
      racewritepc L callers gs addr callpc pc s
        = ⟨false, s.log ++ [(Event.write (gs.goid - 1) addr pc, true)]⟩ ∧
      racereadrangepc L callers gs addr sz st callpc pc s
        = ⟨false, s.log ++ [(Event.readRange (gs.goid - 1) addr sz st pc, true)]⟩ ∧
      racewriterangepc L callers gs addr sz st callpc pc s
        = ⟨false, s.log ++ [(Event.writeRange (gs.goid - 1) addr sz st pc, true)]⟩) ∧
    (onstack L addr = false → callpc ≠ 0 →
      racereadpc L callers gs addr callpc pc s
        = ⟨false, s.log ++
            [(Event.funcEnter (gs.goid - 1) (resolvepc L callers 3 callpc), true),
             (Event.read (gs.goid - 1) addr pc, true),
             (Event.funcExit (gs.goid - 1), true)]⟩ ∧
      racewritepc L callers gs addr callpc pc s
        = ⟨false, s.log ++
            [(Event.funcEnter (gs.goid - 1) (resolvepc L callers 3 callpc), true),
             (Event.write (gs.goid - 1) addr pc, true),
             (Event.funcExit (gs.goid - 1), true)]⟩ ∧
      racereadrangepc L callers gs addr sz st callpc pc s
        = ⟨false, s.log ++
            [(Event.funcEnter (gs.goid - 1) (resolvepc L callers 3 callpc), true),
             (Event.readRange (gs.goid - 1) addr sz st pc, true),
             (Event.funcExit (gs.goid - 1), true)]⟩ ∧
      racewriterangepc L callers gs addr sz st callpc pc s
        = ⟨false, s.log ++
            [(Event.funcEnter (gs.goid - 1) (resolvepc L callers 3 callpc), true),
             (Event.writeRange (gs.goid - 1) addr sz st pc, true),
             (Event.funcExit (gs.goid - 1), true)]⟩) := by
  refine ⟨fun h => ?_, fun h hc => ?_, fun h hc => ?_⟩
  · simp [racereadpc, racewritepc, racereadrangepc, racewriterangepc,
      memoryaccess_eq, rangeaccess_eq, h]
  · simp [racereadpc, racewritepc, racereadrangepc, racewriterangepc,
      memoryaccess_eq, rangeaccess_eq, h, hc]
  · simp [racereadpc, racewritepc, racereadrangepc, racewriterangepc,
      memoryaccess_eq, rangeaccess_eq, h, hc]

theorem pc_forms_sequence_witness :
    (onstack ⟨100, 200, 1000, 2000, 42⟩ 150 = false ∧ (77 : Nat) ≠ 0) ∧
    racewritepc ⟨100, 200, 1000, 2000, 42⟩ (fun k => 500 + k) ⟨3, 0⟩ 150 77 9
        ⟨false, []⟩
      = ⟨false, [(Event.funcEnter 2 77, true), (Event.write 2 150 9, true),
          (Event.funcExit 2, true)]⟩ ∧
    racewritepc ⟨100, 200, 1000, 2000, 42⟩ (fun k => 500 + k) ⟨3, 0⟩ 150 0 9
        ⟨false, []⟩
      = ⟨false, [(Event.write 2 150 9, true)]⟩ ∧
    racewritepc ⟨100, 200, 1000, 2000, 42⟩ (fun k => 500 + k) ⟨3, 0⟩ 50 77 9
        ⟨false, []⟩
      = ⟨false, []⟩ := by
  have h1 := (pc_forms_sequence ⟨100, 200, 1000, 2000, 42⟩ (fun k => 500 + k)
    ⟨3, 0⟩ 150 77 9 0 0 ⟨false, []⟩).2.2 (by decide) (by decide)
  have h2 := (pc_forms_sequence ⟨100, 200, 1000, 2000, 42⟩ (fun k => 500 + k)
    ⟨3, 0⟩ 150 0 9 0 0 ⟨false, []⟩).2.1 (by decide) rfl
  have h3 := (pc_forms_sequence ⟨100, 200, 1000, 2000, 42⟩ (fun k => 500 + k)
    ⟨3, 0⟩ 50 77 9 0 0 ⟨false, []⟩).1 (by decide)
  exact ⟨⟨by decide, by decide⟩, by rw [h1.2.1]; decide, by rw [h2.2.1]; decide,
    h3.2.1⟩

/-- Claim C7: the Malloc hook drops the event when there is no current
goroutine context (`m->curg == nil`, zero detector calls); otherwise it
forwards exactly one Malloc call — with no stack-address filter applied, for
every address — carrying `curg->goid - 1`, the address, the size and the pc
(a task with internal identifier 5 is reported as 4). -/
theorem malloc_forwarding (gp : G) (p sz pc : Nat) (s : MState) :
    racemalloc none p sz pc s = s ∧
    racemalloc (some gp) p sz pc s
      = ⟨false, s.log ++ [(Event.malloc (gp.goid - 1) p sz pc, true)]⟩ := by
  constructor
  · rfl
  · simp [racemalloc, emit, setRacecall]

/-- Claim C8: starting from ignore-depth zero, after N Disable calls followed
by N Enable calls the counter is back to zero and Acquire/Release/ReleaseMerge
calls are forwarded again; after N Disable calls and only N-1 Enable calls the
counter is still positive and those calls remain suppressed. -/
theorem disable_enable_nesting (gs : G) (addr : Nat) (s : MState) (N : Nat)
    (hN : 1 ≤ N) (h0 : gs.raceignore = 0) :
    ((RaceEnable^[N] (RaceDisable^[N] gs)).raceignore = 0 ∧
      raceacquire (RaceEnable^[N] (RaceDisable^[N] gs)) addr s
        = ⟨false, s.log ++ [(Event.acquire (gs.goid - 1) addr, true)]⟩ ∧
      racerelease (RaceEnable^[N] (RaceDisable^[N] gs)) addr s
        = ⟨false, s.log ++ [(Event.release (gs.goid - 1) addr, true)]⟩ ∧
      racereleasemerge (RaceEnable^[N] (RaceDisable^[N] gs)) addr s
        = ⟨false, s.log ++ [(Event.releaseMerge (gs.goid - 1) addr, true)]⟩) ∧
    (0 < (RaceEnable^[N - 1] (RaceDisable^[N] gs)).raceignore ∧
      raceacquire (RaceEnable^[N - 1] (RaceDisable^[N] gs)) addr s = s ∧
      racerelease (RaceEnable^[N - 1] (RaceDisable^[N] gs)) addr s = s ∧
      racereleasemerge (RaceEnable^[N - 1] (RaceDisable^[N] gs)) addr s = s) := by
  have e1 : RaceEnable^[N] (RaceDisable^[N] gs) = ⟨gs.goid, 0⟩ := by
    rw [raceDisable_iterate, raceEnable_iterate]
    simp [h0]
  have e2 : RaceEnable^[N - 1] (RaceDisable^[N] gs) = ⟨gs.goid, 1⟩ := by
    rw [raceDisable_iterate, raceEnable_iterate]
    simp [h0]
    omega
  rw [e1, e2]
  refine ⟨⟨rfl, ?_, ?_, ?_⟩, ⟨by norm_num, ?_, ?_, ?_⟩⟩ <;>
    simp [raceacquire, racerelease, racereleasemerge, raceacquireg,
      racereleaseg, racereleasemergeg, emit, setRacecall]

theorem disable_enable_nesting_witness :
    ((1 : Nat) ≤ 2 ∧ (⟨3, 0⟩ : G).raceignore = 0) ∧
    ((RaceEnable^[2] (RaceDisable^[2] (⟨3, 0⟩ : G))).raceignore = 0 ∧
      raceacquire (RaceEnable^[2] (RaceDisable^[2] ⟨3, 0⟩)) 16 ⟨false, []⟩
        = ⟨false, [(Event.acquire 2 16, true)]⟩) ∧
    (0 < (RaceEnable^[2 - 1] (RaceDisable^[2] (⟨3, 0⟩ : G))).raceignore ∧
      raceacquire (RaceEnable^[2 - 1] (RaceDisable^[2] ⟨3, 0⟩)) 16 ⟨false, []⟩
        = ⟨false, []⟩) := by
  have h := disable_enable_nesting ⟨3, 0⟩ 16 ⟨false, []⟩ 2 (by norm_num) rfl
  exact ⟨⟨by norm_num, rfl⟩, ⟨h.1.1, h.1.2.1⟩, ⟨h.2.1, h.2.2.1⟩⟩

/-- Claim C9: task identifiers cross the bridge as the internal identifier
minus one: TaskStart reports both the parent's and the child's identifiers as
`goid - 1`, TaskEnd reports the ending task's identifier as `goid - 1`, and
the finalizer-registration and FuncExit events likewise report `goid - 1`. -/
theorem external_id_numbering (gs : G) (chgoid egoid : Int) (pc : Nat)
    (s : MState) :
    racegostart gs chgoid pc s
      = ⟨false, s.log ++ [(Event.goStart (gs.goid - 1) (chgoid - 1) pc, true)]⟩ ∧
    racegoend egoid s
      = ⟨false, s.log ++ [(Event.goEnd (egoid - 1), true)]⟩ ∧
    racefingo gs s
      = ⟨false, s.log ++ [(Event.finalizerGoroutine (gs.goid - 1), true)]⟩ ∧
    racefuncexit gs s
      = ⟨false, s.log ++ [(Event.funcExit (gs.goid - 1), true)]⟩ := by
  refine ⟨?_, ?_, ?_, ?_⟩ <;>
    simp [racegostart, racegoend, racefingo, racefuncexit, emit, setRacecall]

/-- Claim C10: more Enable than Disable calls drive the ignore-depth counter
negative — its value is exactly N - M, with no clamp, check or assertion — and
because the suppression test is counter ≠ 0 rather than counter > 0,
Acquire/Release/ReleaseMerge events for that task remain suppressed. -/
theorem enable_underflow (gs gp : G) (addr : Nat) (s : MState) (N M : Nat)
    (h0 : gs.raceignore = 0) (hNM : N < M) :
    (RaceEnable^[M] (RaceDisable^[N] gs)).raceignore = (N : Int) - (M : Int) ∧
    (RaceEnable^[M] (RaceDisable^[N] gs)).raceignore < 0 ∧
    raceacquireg (RaceEnable^[M] (RaceDisable^[N] gs)) gp addr s = s ∧
    racereleaseg (RaceEnable^[M] (RaceDisable^[N] gs)) gp addr s = s ∧
    racereleasemergeg (RaceEnable^[M] (RaceDisable^[N] gs)) gp addr s = s := by
  have e : RaceEnable^[M] (RaceDisable^[N] gs) = ⟨gs.goid, (N : Int) - M⟩ := by
    rw [raceDisable_iterate, raceEnable_iterate]
    simp [h0]
  have hne : ((N : Int) - M) ≠ 0 := by omega
  rw [e]
  refine ⟨rfl, ?_, ?_, ?_, ?_⟩
  · show (N : Int) - M < 0
    omega
  all_goals simp [raceacquireg, racereleaseg, racereleasemergeg, hne]

theorem enable_underflow_witness :
    ((⟨3, 0⟩ : G).raceignore = 0 ∧ (0 : Nat) < 1) ∧
    (RaceEnable^[1] (RaceDisable^[0] (⟨3, 0⟩ : G))).raceignore = (0 : Int) - 1 ∧
    raceacquireg (RaceEnable^[1] (RaceDisable^[0] ⟨3, 0⟩)) ⟨7, 0⟩ 16 ⟨false, []⟩
      = ⟨false, []⟩ := by
  have h := enable_underflow ⟨3, 0⟩ ⟨7, 0⟩ 16 ⟨false, []⟩ 0 1 rfl (by norm_num)
  exact ⟨⟨rfl, by norm_num⟩, h.1, h.2.2.1⟩

end RaceBridge
